import Mathlib

/-!
Verification of the xComfort bridge client runtime (homey-xcomfort-bridge).

Shallow embedding of the crypto codec (src/lib/crypto/Encryption.ts), the
connection manager (src/lib/connection/ConnectionManager.mts), the bridge
facade (src/lib/connection/XComfortBridge.mts), the authenticator
(Authenticator.mts) and the state-update fanout (MessageHandler.mts,
DeviceStateManager.mts).

Bytes are modelled as natural numbers below 256 and buffers as lists of
bytes; JavaScript `Map` objects are modelled as association lists that
preserve insertion order (which is what `Map` iteration guarantees);
`undefined`-able fields are modelled with `Option`.
-/

namespace XComfort

/-- Constant `ENCRYPTION_CONFIG.blockSize` / `PROTOCOL_CONFIG.ENCRYPTION.BLOCK_SIZE`. -/
def blockSize : Nat := 16

/-- Embeds `padToBlockSize` (src/lib/crypto/Encryption.ts lines 45-55):
computes `padding = blockSize - (buf.length % blockSize)` and returns
`Buffer.alloc(buf.length + padding, 0)` with `buf` copied into the front,
i.e. the input followed by `padding` null bytes.  Padding is always added,
even when the input is already aligned. -/
def padToBlockSize (buf : List Nat) : List Nat :=
  buf ++ List.replicate (blockSize - buf.length % blockSize) 0

/-- Embeds `unpad` (Encryption.ts lines 63-65): removes every trailing null
byte (the regex replace of a trailing run of `\x00` with the empty string). -/
def unpad (buf : List Nat) : List Nat :=
  (buf.reverse.dropWhile (fun b => b == 0)).reverse

/-- C5: for every input byte length `L`, `padToBlockSize` produces a buffer
of length `L + (16 - L % 16)`; that length is a multiple of 16, the number
of appended null bytes lies in `[1, 16]` (never zero), and when
`L % 16 = 0` a full extra block of 16 zero bytes is appended. -/
theorem padToBlockSize_length_spec (buf : List Nat) :
    (padToBlockSize buf).length = buf.length + (16 - buf.length % 16) ∧
    (padToBlockSize buf).length % 16 = 0 ∧
    1 ≤ (padToBlockSize buf).length - buf.length ∧
    (padToBlockSize buf).length - buf.length ≤ 16 ∧
    (buf.length % 16 = 0 → padToBlockSize buf = buf ++ List.replicate 16 0) := by
  have hlen : (padToBlockSize buf).length = buf.length + (16 - buf.length % 16) := by
    simp [padToBlockSize, blockSize]
  have hmod : buf.length % 16 < 16 := Nat.mod_lt _ (by norm_num)
  have hdiv : buf.length % 16 ≤ buf.length := Nat.mod_le _ _
  refine ⟨hlen, by omega, by omega, by omega, ?_⟩
  intro h0
  simp [padToBlockSize, blockSize, h0]

/-- Bytewise XOR of two equal-length buffers, the CBC chaining step of
`aes-256-cbc` (the mode requested from `crypto.createCipheriv` by
Encryption.ts line 82 and ConnectionManager.mts line 391). -/
def xorBytes (a b : List Nat) : List Nat := List.zipWith (fun x y => x ^^^ y) a b

/-- A well-formed AES block: 16 bytes, each below 256. -/
def ValidBlock (b : List Nat) : Prop := b.length = 16 ∧ ∀ x ∈ b, x < 256

/-- Splits a buffer into consecutive 16-byte blocks, the implicit chunking
performed by the block-cipher mode over the whole padded buffer. -/
def toBlocks (l : List Nat) : List (List Nat) :=
  if _h : l = [] then [] else l.take 16 :: toBlocks (l.drop 16)
termination_by l.length
decreasing_by
  simp [List.length_drop]
  cases l with
  | nil => simp_all
  | cons a t => simp

/-- CBC encryption over a block sequence: each plaintext block is XOR-ed with
the previous ciphertext block (the IV for the first) and passed through the
block cipher.  The per-key AES-256 block permutation provided by
`node:crypto` is the parameter `enc`. -/
def cbcEncryptBlocks (enc : List Nat → List Nat) :
    List Nat → List (List Nat) → List (List Nat)
  | _, [] => []
  | prev, p :: ps =>
      let c := enc (xorBytes p prev)
      c :: cbcEncryptBlocks enc c ps

/-- CBC decryption over a block sequence, the inverse chaining with the
inverse block permutation `dec`. -/
def cbcDecryptBlocks (dec : List Nat → List Nat) :
    List Nat → List (List Nat) → List (List Nat)
  | _, [] => []
  | prev, c :: cs => xorBytes (dec c) prev :: cbcDecryptBlocks dec c cs

/-- Base64 alphabet used by `Buffer.toString('base64')`. -/
def base64Alphabet : List Char :=
  "ABCDEFGHIJKLMNOPQRSTUVWXYZabcdefghijklmnopqrstuvwxyz0123456789+/".data

/-- Character for a 6-bit group. -/
def b64c (n : Nat) : Char := base64Alphabet.getD n '?'

/-- 6-bit value of a base64 character. -/
def b64v (c : Char) : Nat := base64Alphabet.indexOf c

/-- Standard base64 encoding of a byte buffer (`Buffer.toString('base64')`),
three bytes to four characters with trailing `=` padding. -/
def base64Encode : List Nat → List Char
  | [] => []
  | [b0] => [b64c (b0 / 4), b64c (b0 % 4 * 16), '=', '=']
  | [b0, b1] => [b64c (b0 / 4), b64c (b0 % 4 * 16 + b1 / 16), b64c (b1 % 16 * 4), '=']
  | b0 :: b1 :: b2 :: rest =>
      b64c (b0 / 4) :: b64c (b0 % 4 * 16 + b1 / 16) :: b64c (b1 % 16 * 4 + b2 / 64) ::
        b64c (b2 % 64) :: base64Encode rest

/-- Standard base64 decoding (`Buffer.from(s, 'base64')`). -/
def base64Decode : List Char → List Nat
  | c0 :: c1 :: c2 :: c3 :: rest =>
      if c2 = '=' then [b64v c0 * 4 + b64v c1 / 16]
      else if c3 = '=' then [b64v c0 * 4 + b64v c1 / 16, b64v c1 % 16 * 16 + b64v c2 / 4]
      else (b64v c0 * 4 + b64v c1 / 16) :: (b64v c1 % 16 * 16 + b64v c2 / 4) ::
        (b64v c2 % 4 * 64 + b64v c3) :: base64Decode rest
  | _ => []

/-- Protocol terminator `MESSAGE_TERMINATOR = '\u0004'` (Encryption.ts line 32). -/
def EOT : Char := Char.ofNat 4

/-- An `EncryptionContext` (32-byte key, 16-byte IV) as the codec consumes it:
the key only ever reaches `crypto.createCipheriv`, so the context is embedded
as the AES-256 block permutation it selects (`encBlock` with inverse
`decBlock`) together with the IV bytes. -/
structure CbcContext where
  encBlock : List Nat → List Nat
  decBlock : List Nat → List Nat
  iv : List Nat

/-- Embeds `encrypt` (Encryption.ts lines 75-91) applied to the UTF-8 bytes of
`JSON.stringify(data)`: pad with null bytes, AES-256-CBC with
`setAutoPadding(false)`, base64-encode, append the `0x04` terminator. -/
def encrypt (jsonBytes : List Nat) (C : CbcContext) : List Char :=
  base64Encode ((cbcEncryptBlocks C.encBlock C.iv (toBlocks (padToBlockSize jsonBytes))).flatten)
    ++ [EOT]

/-- Embeds the router's terminator strip (XComfortBridge.mts line 204:
`if (rawStr.endsWith('\u0004')) rawStr = rawStr.slice(0, -1)`). -/
def stripTerminator (frame : List Char) : List Char :=
  if frame.getLast? = some EOT then frame.dropLast else frame

/-- Embeds the defensive alignment in `decrypt` (Encryption.ts lines 108-116):
`Math.ceil(len / 16) * 16`, right-padding with zero bytes when short. -/
def alignToBlock (encryptedBuf : List Nat) : List Nat :=
  if encryptedBuf.length < ((encryptedBuf.length + 16 - 1) / 16) * 16
  then encryptedBuf ++
    List.replicate (((encryptedBuf.length + 16 - 1) / 16) * 16 - encryptedBuf.length) 0
  else encryptedBuf

/-- Embeds `decrypt` (Encryption.ts lines 101-131): base64-decode, align to
the block size, AES-256-CBC decrypt with `setAutoPadding(false)`, strip all
trailing null bytes. -/
def decrypt (encryptedBase64 : List Char) (C : CbcContext) : List Nat :=
  unpad ((cbcDecryptBlocks C.decBlock C.iv
    (toBlocks (alignToBlock (base64Decode encryptedBase64)))).flatten)

theorem padToBlockSize_mod (buf : List Nat) : (padToBlockSize buf).length % 16 = 0 := by
  have hmod : buf.length % 16 < 16 := Nat.mod_lt _ (by norm_num)
  simp only [padToBlockSize, blockSize, List.length_append, List.length_replicate]
  omega

theorem alignToBlock_eq (l : List Nat) (h : l.length % 16 = 0) : alignToBlock l = l := by
  unfold alignToBlock
  rw [if_neg (by omega)]

theorem xorBytes_xorBytes (a : List Nat) : ∀ b, a.length = b.length →
    xorBytes (xorBytes a b) b = a := by
  induction a with
  | nil => intro b h; cases b <;> simp_all [xorBytes]
  | cons x xs ih =>
      intro b h
      cases b with
      | nil => simp at h
      | cons y ys =>
          simp only [xorBytes, List.zipWith_cons_cons] at *
          rw [Nat.xor_assoc, Nat.xor_self, Nat.xor_zero]
          exact congrArg _ (ih ys (by simpa using h))

theorem xorBytes_valid {a b : List Nat} (ha : ValidBlock a) (hb : ValidBlock b) :
    ValidBlock (xorBytes a b) := by
  constructor
  · simp [xorBytes, ha.1, hb.1]
  · intro x hx
    rw [List.mem_iff_get] at hx
    obtain ⟨i, hi⟩ := hx
    rw [← hi]
    simp only [xorBytes, List.get_eq_getElem, List.getElem_zipWith]
    have h8 : (256 : Nat) = 2 ^ 8 := by norm_num
    rw [h8]
    exact Nat.xor_lt_two_pow
      (by rw [← h8]; exact ha.2 _ (List.getElem_mem _))
      (by rw [← h8]; exact hb.2 _ (List.getElem_mem _))

theorem toBlocks_flatten (l : List Nat) : (toBlocks l).flatten = l := by
  induction l using toBlocks.induct with
  | case1 => simp [toBlocks]
  | case2 l h ih => rw [toBlocks]; simp [h, ih]

theorem toBlocks_valid (l : List Nat) (hmod : l.length % 16 = 0)
    (hlt : ∀ x ∈ l, x < 256) : ∀ b ∈ toBlocks l, ValidBlock b := by
  induction l using toBlocks.induct with
  | case1 => simp [toBlocks]
  | case2 l h ih =>
      rw [toBlocks]
      simp only [h, dite_false, List.mem_cons]
      have hlen : 16 ≤ l.length := by
        rcases Nat.eq_zero_or_pos l.length with h0 | h0
        · exact absurd (List.length_eq_zero.mp h0) h
        · omega
      intro b hb
      rcases hb with hb | hb
      · subst hb
        exact ⟨by simp [List.length_take]; omega,
          fun x hx => hlt x (List.take_subset _ _ hx)⟩
      · refine ih ?_ ?_ b hb
        · simp [List.length_drop]; omega
        · exact fun x hx => hlt x (List.drop_subset _ _ hx)

theorem toBlocks_of_flatten (bs : List (List Nat)) (h : ∀ b ∈ bs, b.length = 16) :
    toBlocks bs.flatten = bs := by
  induction bs with
  | nil => simp [toBlocks]
  | cons b rest ih =>
      have hb : b.length = 16 := h b (by simp)
      have hne : b ++ rest.flatten ≠ [] := by
        intro hc
        have := congrArg List.length hc
        simp [hb] at this
      rw [List.flatten_cons, toBlocks]
      simp only [hne, dite_false]
      rw [List.take_append_of_le_length (by omega), List.drop_append_of_le_length (by omega)]
      rw [List.take_of_length_le (by omega), List.drop_of_length_le (by omega)]
      simp only [List.nil_append]
      rw [ih (fun x hx => h x (List.mem_cons_of_mem _ hx))]

theorem cbcEncryptBlocks_valid (enc : List Nat → List Nat)
    (henc : ∀ b, ValidBlock b → ValidBlock (enc b)) :
    ∀ ps prev, (∀ p ∈ ps, ValidBlock p) → ValidBlock prev →
      ∀ c ∈ cbcEncryptBlocks enc prev ps, ValidBlock c := by
  intro ps
  induction ps with
  | nil => intro prev _ _ c hc; simp [cbcEncryptBlocks] at hc
  | cons p ps ih =>
      intro prev hps hprev c hc
      simp only [cbcEncryptBlocks, List.mem_cons] at hc
      have hcblock : ValidBlock (enc (xorBytes p prev)) :=
        henc _ (xorBytes_valid (hps p (by simp)) hprev)
      rcases hc with hc | hc
      · subst hc; exact hcblock
      · exact ih _ (fun q hq => hps q (by simp [hq])) hcblock c hc

theorem cbcDecrypt_cbcEncrypt (enc dec : List Nat → List Nat)
    (henc : ∀ b, ValidBlock b → ValidBlock (enc b))
    (hdec : ∀ b, ValidBlock b → dec (enc b) = b) :
    ∀ ps prev, (∀ p ∈ ps, ValidBlock p) → ValidBlock prev →
      cbcDecryptBlocks dec prev (cbcEncryptBlocks enc prev ps) = ps := by
  intro ps
  induction ps with
  | nil => intro prev _ _; simp [cbcEncryptBlocks, cbcDecryptBlocks]
  | cons p ps ih =>
      intro prev hps hprev
      have hpv : ValidBlock p := hps p (by simp)
      have hxv : ValidBlock (xorBytes p prev) := xorBytes_valid hpv hprev
      have hcv : ValidBlock (enc (xorBytes p prev)) := henc _ hxv
      simp only [cbcEncryptBlocks, cbcDecryptBlocks]
      rw [hdec _ hxv]
      rw [xorBytes_xorBytes p prev (by rw [hpv.1, hprev.1])]
      rw [ih _ (fun q hq => hps q (by simp [hq])) hcv]

theorem flatten_mod16 (bs : List (List Nat)) (h : ∀ b ∈ bs, b.length = 16) :
    bs.flatten.length % 16 = 0 := by
  induction bs with
  | nil => simp
  | cons b rest ih =>
      simp only [List.flatten_cons, List.length_append, h b (by simp)]
      have := ih (fun x hx => h x (List.mem_cons_of_mem _ hx))
      omega

theorem unpad_append_zeros (s : List Nat) (k : Nat) :
    unpad (s ++ List.replicate k 0) = unpad s := by
  unfold unpad
  rw [List.reverse_append, List.reverse_replicate]
  induction k with
  | zero => simp
  | succ n ih =>
      rw [List.replicate_succ, List.cons_append, List.dropWhile_cons_of_pos (by simp)]
      exact ih

theorem unpad_eq_self (s : List Nat) (h : s.getLast? ≠ some 0) : unpad s = s := by
  unfold unpad
  cases hrev : s.reverse with
  | nil =>
      have : s = [] := by simpa using congrArg List.reverse hrev
      simp [this]
  | cons a t =>
      have ha : s.getLast? = some a := by
        rw [← List.head?_reverse, hrev]; rfl
      have ha0 : ¬ (a == 0) = true := by
        simp only [beq_iff_eq]
        intro hc; exact h (by rw [ha, hc])
      rw [List.dropWhile_cons_of_neg (by simpa using ha0)]
      rw [← hrev, List.reverse_reverse]

theorem b64v_b64c : ∀ n < 64, b64v (b64c n) = n := by decide

theorem b64c_ne_pad : ∀ n < 64, ¬ b64c n = '=' := by decide

theorem base64Decode_encode (bs : List Nat) (h : ∀ x ∈ bs, x < 256) :
    base64Decode (base64Encode bs) = bs := by
  induction bs using base64Encode.induct with
  | case1 => rfl
  | case2 b0 =>
      have hb0 : b0 < 256 := h b0 (by simp)
      simp [base64Encode, base64Decode]
      rw [b64v_b64c _ (by omega), b64v_b64c _ (by omega)]
      omega
  | case3 b0 b1 =>
      have hb0 : b0 < 256 := h b0 (by simp)
      have hb1 : b1 < 256 := h b1 (by simp)
      simp [base64Encode, base64Decode, b64c_ne_pad (b1 % 16 * 4) (by omega)]
      rw [b64v_b64c _ (by omega), b64v_b64c _ (by omega), b64v_b64c _ (by omega)]
      constructor <;> omega
  | case4 b0 b1 b2 rest ih =>
      have hb0 : b0 < 256 := h b0 (by simp)
      have hb1 : b1 < 256 := h b1 (by simp)
      have hb2 : b2 < 256 := h b2 (by simp)
      have hrest : ∀ x ∈ rest, x < 256 := fun x hx => h x (by simp [hx])
      simp [base64Encode, base64Decode,
        b64c_ne_pad (b1 % 16 * 4 + b2 / 64) (by omega),
        b64c_ne_pad (b2 % 64) (by omega)]
      rw [b64v_b64c _ (by omega), b64v_b64c _ (by omega), b64v_b64c _ (by omega),
        b64v_b64c _ (by omega), ih hrest]
      refine ⟨by omega, by omega, by omega, rfl⟩

/-- C4: the decrypt of the terminator-stripped encrypt returns the original
payload.  The payload appears as the UTF-8 byte string `s` of
`JSON.stringify(P)` — such a serialization is never empty and never ends in
a NUL byte (a top-level JSON object ends in the byte of the closing brace,
and control characters inside strings are escaped), which the hypothesis
`hlast` records.  A valid context is a 16-byte IV of bytes plus the AES-256
block permutation the 32-byte key selects in `node:crypto`, recorded by the
hypotheses `hiv`, `henc` (a block maps to a block) and `hdec` (the inverse). -/
theorem encrypt_decrypt_roundtrip (C : CbcContext) (s : List Nat)
    (hiv : ValidBlock C.iv)
    (henc : ∀ b, ValidBlock b → ValidBlock (C.encBlock b))
    (hdec : ∀ b, ValidBlock b → C.decBlock (C.encBlock b) = b)
    (hbytes : ∀ x ∈ s, x < 256)
    (hlast : s.getLast? ≠ some 0) :
    decrypt (stripTerminator (encrypt s C)) C = s := by
  have hstrip : stripTerminator (encrypt s C) =
      base64Encode ((cbcEncryptBlocks C.encBlock C.iv
        (toBlocks (padToBlockSize s))).flatten) := by
    unfold stripTerminator encrypt
    rw [List.getLast?_concat, if_pos rfl, List.dropLast_concat]
  have hpadmod : (padToBlockSize s).length % 16 = 0 := padToBlockSize_mod s
  have hpadlt : ∀ x ∈ padToBlockSize s, x < 256 := by
    intro x hx
    rcases List.mem_append.mp hx with h | h
    · exact hbytes x h
    · simp [List.eq_of_mem_replicate h]
  have hblocks := toBlocks_valid (padToBlockSize s) hpadmod hpadlt
  have hcipherv := cbcEncryptBlocks_valid C.encBlock henc (toBlocks (padToBlockSize s))
    C.iv hblocks hiv
  have hflat_lt : ∀ x ∈ (cbcEncryptBlocks C.encBlock C.iv
      (toBlocks (padToBlockSize s))).flatten, x < 256 := by
    intro x hx
    obtain ⟨b, hb, hxb⟩ := List.mem_flatten.mp hx
    exact (hcipherv b hb).2 x hxb
  rw [hstrip]
  unfold decrypt
  rw [base64Decode_encode _ hflat_lt]
  rw [alignToBlock_eq _ (flatten_mod16 _ (fun b hb => (hcipherv b hb).1))]
  rw [toBlocks_of_flatten _ (fun b hb => (hcipherv b hb).1)]
  rw [cbcDecrypt_cbcEncrypt C.encBlock C.decBlock henc hdec _ _ hblocks hiv]
  rw [toBlocks_flatten]
  have hk : padToBlockSize s = s ++ List.replicate (16 - s.length % 16) 0 := rfl
  rw [hk, unpad_append_zeros, unpad_eq_self s hlast]

/-- Concrete context whose block permutation is the identity, for the
roundtrip witness. -/
def idCtx : CbcContext := ⟨id, id, List.replicate 16 0⟩

/-- Witness for C4: the roundtrip at the two-byte payload `{}` under the
identity block permutation with a zero IV. -/
theorem encrypt_decrypt_roundtrip_witness :
    decrypt (stripTerminator (encrypt [123, 125] idCtx)) idCtx = [123, 125] :=
  encrypt_decrypt_roundtrip idCtx [123, 125]
    ⟨by decide, by decide⟩
    (fun _ hb => hb)
    (fun _ _ => rfl)
    (by decide)
    (by decide)

namespace ConnectionManager

/-- Embeds `nextMc` (ConnectionManager.mts lines 141-143): the body is
`return ++this.mc`, so the counter is incremented and the incremented value
is returned.  State passing is explicit: the result is
(returned value, new counter). -/
def nextMc (mc : Nat) : Nat × Nat := (mc + 1, mc + 1)

/-- Embeds `resetMc` (ConnectionManager.mts lines 148-150): `this.mc = 0`.
The facade's `connect` (XComfortBridge.mts line 154) invokes it at the start
of every session, including each reconnect (`scheduleReconnect` re-enters
`connect`, XComfortBridge.mts line 196). -/
def resetMc : Nat := 0

/-- Counter value after `i` calls of `nextMc` in a session that started with
`resetMc`. -/
def mcAfter : Nat → Nat
  | 0 => resetMc
  | n + 1 => (nextMc (mcAfter n)).2

/-- Value attached by the (i+1)-th `nextMc` call of a session (0-indexed). -/
def sentMc (i : Nat) : Nat := (nextMc (mcAfter i)).1

theorem mcAfter_eq (n : Nat) : mcAfter n = n := by
  induction n with
  | zero => rfl
  | succ n ih => simp [mcAfter, nextMc, ih]

/-- C7: within a session the mc values handed out by `nextMc` are exactly
1, 2, 3, …: the first is 1, the sequence is strictly increasing, and because
`connect` resets the counter via `resetMc` at each new session (connect or
reconnect), the next sent mc after a session start is again 1. -/
theorem mc_session_spec :
    sentMc 0 = 1 ∧
    (∀ i j, i < j → sentMc i < sentMc j) ∧
    (∀ i, sentMc i = i + 1) ∧
    (nextMc resetMc).1 = 1 := by
  have h : ∀ i, sentMc i = i + 1 := by
    intro i
    simp [sentMc, nextMc, mcAfter_eq]
  exact ⟨h 0, fun i j hij => by simp only [h]; omega, h, rfl⟩

end ConnectionManager

/-- JavaScript number: NaN or a (finite) rational.  Infinities never arise in
the embedded fragments. -/
inductive JSNumber where
  | nan : JSNumber
  | num : ℚ → JSNumber
deriving DecidableEq

/-- JavaScript `Math.min`: NaN if either argument is NaN. -/
def jsMin : JSNumber → JSNumber → JSNumber
  | .nan, _ => .nan
  | _, .nan => .nan
  | .num a, .num b => .num (min a b)

/-- JavaScript `Math.max`: NaN if either argument is NaN. -/
def jsMax : JSNumber → JSNumber → JSNumber
  | .nan, _ => .nan
  | _, .nan => .nan
  | .num a, .num b => .num (max a b)

/-- JSON value as it appears in outbound payload fields. -/
inductive JSValue where
  | vNull : JSValue
  | vBool : Bool → JSValue
  | vNum : JSNumber → JSValue
  | vStr : String → JSValue
deriving DecidableEq

/-- An outbound protocol message: `type_int`, the optional message counter,
and the payload as the ordered field list the source writes. -/
structure OutMessage where
  type_int : Nat
  mc : Option Nat := none
  payload : List (String × JSValue) := []
deriving DecidableEq

/-- Readiness of the `ws` WebSocket (`WebSocket.OPEN` is `opened`). -/
inductive WsReadyState where
  | connecting | opened | closing | closed
deriving DecidableEq

/-- EncryptionContext of types.mts: AES key and IV buffers. -/
structure EncryptionContext where
  key : List Nat
  iv : List Nat
deriving DecidableEq

/-- Mutable fields of ConnectionManager (ConnectionManager.mts lines 54-72)
that the embedded operations read or write: the encryption context, the
socket (`none` for null, otherwise its readyState), the message counter and
the keys of the `pendingAcks` map. -/
structure CMState where
  encryptionContext : Option EncryptionContext := none
  ws : Option WsReadyState := none
  mc : Nat := 0
  pendingAcks : List Nat := []
deriving DecidableEq

/-- Embeds `ConnectionManager.isConnected` (lines 123-129):
`!!(this.encryptionContext && this.ws && this.ws.readyState === WebSocket.OPEN)`. -/
def CMState.isConnected (s : CMState) : Bool :=
  s.encryptionContext.isSome && (s.ws == some WsReadyState.opened)

/-- Embeds `ConnectionManager.sendEncrypted` (lines 251-273): returns false
when the socket is not open or no encryption context is set; otherwise
encrypts and writes exactly one frame and returns true.  Result: (returned
boolean, frames written to the socket). -/
def CMState.sendEncrypted (s : CMState) (msg : OutMessage) : Bool × List OutMessage :=
  if ¬ (s.ws == some WsReadyState.opened) then (false, [])
  else if s.encryptionContext.isNone then (false, [])
  else (true, [msg])

/-- Authenticator phases (state/index.mts lines 71-80). -/
inductive AuthState where
  | idle | awaiting_connection | awaiting_public_key | awaiting_secret_ack
  | awaiting_login_response | awaiting_token_apply | awaiting_token_renew
  | authenticated
deriving DecidableEq

/-- State of the facade (XComfortBridge.mts) relevant to the embedded
operations: the connection manager, the authenticator phase, the
`deviceListReceived` flag set when a discovery payload carries `lastItem`,
and — as environment — the refs of inbound `{ACK, ref}` frames the router
has handed to `handleAck` so far in this session. -/
structure BridgeState where
  cm : CMState
  authState : AuthState := .idle
  deviceListReceived : Bool := false
  acksReceived : List Nat := []
deriving DecidableEq

/-- Embeds the facade getter `isConnected` (XComfortBridge.mts lines 402-404):
`return this.connectionManager.isConnected()`. -/
def BridgeState.isConnected (s : BridgeState) : Bool := s.cm.isConnected

/-- Embeds the state effects of `Authenticator.handleUnencryptedMessage`
(the handshake branch of the message pump) together with
`XComfortBridge.handleRawMessage` propagating the freshly generated context
to the connection manager (XComfortBridge.mts lines 209-215):
CONNECTION_START (10) moves to awaiting_public_key; the SC_INIT messages
(12, 14) only send; PUBLIC_KEY_RESPONSE (15) stores a fresh AES context
(whose random bytes are the input `fresh`) and moves to awaiting_secret_ack. -/
def handleUnencryptedStep (fresh : EncryptionContext) (s : BridgeState) (t : Nat) :
    BridgeState :=
  if t = 10 then { s with authState := .awaiting_public_key }
  else if t = 12 ∨ t = 14 then s
  else if t = 15 then
    { s with authState := .awaiting_secret_ack,
             cm := { s.cm with encryptionContext := some fresh } }
  else s

/-- A demonstration AES context (concrete key and IV bytes). -/
def demoCtx : EncryptionContext := ⟨List.replicate 32 1, List.replicate 16 2⟩

/-- Facade state reached after the unencrypted handshake messages 10 and 15
on an open socket: the context is set but login has not even been sent. -/
def preAuthState : BridgeState :=
  handleUnencryptedStep demoCtx
    (handleUnencryptedStep demoCtx
      { cm := { encryptionContext := none, ws := some .opened, mc := 0, pendingAcks := [] } }
      10)
    15

/-- C2 counterexample: `preAuthState` is reached before the authenticator is
anywhere near its terminal phase and before any discovery payload, yet the
facade's `isConnected` already reports true — refuting the claim that it is
never true in any earlier phase of the session. -/
theorem isConnected_true_before_authenticated :
    BridgeState.isConnected preAuthState = true ∧
    preAuthState.authState = AuthState.awaiting_secret_ack ∧
    preAuthState.authState ≠ AuthState.authenticated ∧
    preAuthState.deviceListReceived = false := by
  refine ⟨rfl, rfl, ?_, rfl⟩
  decide

/-- C2 amended: the facade's `isConnected` getter returns exactly
"an encryption context is set and the WebSocket is open"; it does not
consult the authenticator phase or the discovery flag, so it can be true
before the terminal authenticated state and before the device-list
`lastItem` marker. -/
theorem isConnected_ignores_auth_and_discovery (s : BridgeState) :
    (BridgeState.isConnected s =
      (s.cm.encryptionContext.isSome && s.cm.ws == some WsReadyState.opened)) ∧
    (∀ a d acks,
      BridgeState.isConnected
        { s with authState := a, deviceListReceived := d, acksReceived := acks } =
      BridgeState.isConnected s) :=
  ⟨rfl, fun _ _ _ => rfl⟩

/-- Message type codes used by the facade operations (XComfortProtocol.mts). -/
def DEVICE_DIM : Nat := 280

def DEVICE_SWITCH : Nat := 281

def ROOM_DIM : Nat := 283

def ROOM_SWITCH : Nat := 284

def ACTIVATE_SCENE : Nat := 285

/-- Observable outcome of one facade call: the boolean the promise resolves
to, the message counter afterwards, the frames written to the socket, and
the pendingAcks keys afterwards. -/
structure CallResult where
  ret : Bool
  newMc : Nat
  frames : List OutMessage
  pendingAcksAfter : List Nat
deriving DecidableEq

/-- Embeds `XComfortBridge.switchDevice` (lines 300-308): `requireConnection`
throws when `connectionManager.isConnected()` is false; otherwise one
DEVICE_SWITCH frame with payload `{deviceId, switch}` and `mc = nextMc()` is
passed to `sendEncrypted`, whose boolean return is the resolved value.  The
promise resolves at once — nothing registers an ACK waiter or consults the
pendingAcks map. -/
def switchDevice (s : BridgeState) (deviceId : String) (switchState : Bool) :
    Except String CallResult :=
  if CMState.isConnected s.cm = false then .error "xComfort Bridge not connected"
  else
    let mc1 := (ConnectionManager.nextMc s.cm.mc).1
    let msg : OutMessage :=
      { type_int := DEVICE_SWITCH, mc := some mc1,
        payload := [("deviceId", .vStr deviceId), ("switch", .vBool switchState)] }
    let r := CMState.sendEncrypted { s.cm with mc := mc1 } msg
    .ok { ret := r.1, newMc := mc1, frames := r.2, pendingAcksAfter := s.cm.pendingAcks }

/-- Embeds `XComfortBridge.setDimmerValue` (lines 310-323): after
`requireConnection`, the value is reassigned to
`Math.max(DIM_MIN, Math.min(DIM_MAX, dimmValue))` — there is no check for
NaN or a non-number — and one DEVICE_DIM frame with payload
`{deviceId, dimmvalue}` is sent through `sendEncrypted`. -/
def setDimmerValue (s : BridgeState) (deviceId : String) (dimmValue : JSNumber) :
    Except String CallResult :=
  if CMState.isConnected s.cm = false then .error "xComfort Bridge not connected"
  else
    let clamped := jsMax (.num 1) (jsMin (.num 99) dimmValue)
    let mc1 := (ConnectionManager.nextMc s.cm.mc).1
    let msg : OutMessage :=
      { type_int := DEVICE_DIM, mc := some mc1,
        payload := [("deviceId", .vStr deviceId), ("dimmvalue", .vNum clamped)] }
    let r := CMState.sendEncrypted { s.cm with mc := mc1 } msg
    .ok { ret := r.1, newMc := mc1, frames := r.2, pendingAcksAfter := s.cm.pendingAcks }

/-- The two actions accepted by `controlRoom`. -/
inductive RoomAction where
  | actSwitch | actDimm
deriving DecidableEq

/-- The `value` parameter of `controlRoom`: `boolean | number | null`. -/
inductive RoomValue where
  | rNull : RoomValue
  | rBool : Bool → RoomValue
  | rNum : JSNumber → RoomValue
deriving DecidableEq

/-- The value as it is placed verbatim into the `switch` payload field. -/
def RoomValue.asJSValue : RoomValue → JSValue
  | .rNull => .vNull
  | .rBool b => .vBool b
  | .rNum n => JSValue.vNum n

/-- ToNumber coercion applied by `Math.min`/`Math.max` to `value as number`. -/
def RoomValue.toNumber : RoomValue → JSNumber
  | .rNull => .num 0
  | .rBool b => .num (if b then 1 else 0)
  | .rNum n => n

/-- Embeds `XComfortBridge.controlRoom` (lines 325-351): for action
`'switch'` the value is sent verbatim; for `'dimm'` with non-null value it
is clamped like a dimmer value; any other combination throws. -/
def controlRoom (s : BridgeState) (roomId : String) (action : RoomAction)
    (value : RoomValue) : Except String CallResult :=
  if CMState.isConnected s.cm = false then .error "xComfort Bridge not connected"
  else if action = .actSwitch then
    let mc1 := (ConnectionManager.nextMc s.cm.mc).1
    let msg : OutMessage :=
      { type_int := ROOM_SWITCH, mc := some mc1,
        payload := [("roomId", .vStr roomId), ("switch", value.asJSValue)] }
    let r := CMState.sendEncrypted { s.cm with mc := mc1 } msg
    .ok { ret := r.1, newMc := mc1, frames := r.2, pendingAcksAfter := s.cm.pendingAcks }
  else if action = .actDimm ∧ value ≠ .rNull then
    let dimmValue := jsMax (.num 1) (jsMin (.num 99) value.toNumber)
    let mc1 := (ConnectionManager.nextMc s.cm.mc).1
    let msg : OutMessage :=
      { type_int := ROOM_DIM, mc := some mc1,
        payload := [("roomId", .vStr roomId), ("dimmvalue", .vNum dimmValue)] }
    let r := CMState.sendEncrypted { s.cm with mc := mc1 } msg
    .ok { ret := r.1, newMc := mc1, frames := r.2, pendingAcksAfter := s.cm.pendingAcks }
  else .error "Invalid room action"

/-- Embeds `XComfortBridge.activateScene` (lines 353-361): requireConnection
then one ACTIVATE_SCENE frame with payload `{sceneId}`. -/
def activateScene (s : BridgeState) (sceneId : JSNumber) : Except String CallResult :=
  if CMState.isConnected s.cm = false then .error "xComfort Bridge not connected"
  else
    let mc1 := (ConnectionManager.nextMc s.cm.mc).1
    let msg : OutMessage :=
      { type_int := ACTIVATE_SCENE, mc := some mc1,
        payload := [("sceneId", .vNum sceneId)] }
    let r := CMState.sendEncrypted { s.cm with mc := mc1 } msg
    .ok { ret := r.1, newMc := mc1, frames := r.2, pendingAcksAfter := s.cm.pendingAcks }

theorem sendEncrypted_of_connected (s : CMState) (msg : OutMessage)
    (h : CMState.isConnected s = true) :
    CMState.sendEncrypted s msg = (true, [msg]) := by
  unfold CMState.isConnected at h
  rw [Bool.and_eq_true] at h
  obtain ⟨h1, h2⟩ := h
  unfold CMState.sendEncrypted
  rw [if_neg (by simp [h2]), if_neg (by
    cases hc : s.encryptionContext with
    | none => rw [hc] at h1; simp at h1
    | some c => simp)]

theorem sendEncrypted_mc_irrelevant (s : CMState) (m : Nat) (msg : OutMessage) :
    CMState.sendEncrypted { s with mc := m } msg = CMState.sendEncrypted s msg := rfl

theorem setDimmerValue_eq_of_connected (s : BridgeState) (d : String) (v : JSNumber)
    (h : BridgeState.isConnected s = true) :
    setDimmerValue s d v =
      .ok { ret := true, newMc := s.cm.mc + 1,
            frames := [{ type_int := DEVICE_DIM, mc := some (s.cm.mc + 1),
                         payload := [("deviceId", .vStr d),
                           ("dimmvalue", .vNum (jsMax (.num 1) (jsMin (.num 99) v)))] }],
            pendingAcksAfter := s.cm.pendingAcks } := by
  have hcm : CMState.isConnected s.cm = true := h
  have hsend : ∀ msg, CMState.sendEncrypted { s.cm with mc := s.cm.mc + 1 } msg =
      (true, [msg]) := by
    intro msg
    rw [sendEncrypted_mc_irrelevant]
    exact sendEncrypted_of_connected s.cm msg hcm
  unfold setDimmerValue
  rw [if_neg (by simp [hcm])]
  simp [ConnectionManager.nextMc, hsend]

/-- A connected facade state in which not a single inbound ACK has been
received this session and no ACK waiter is registered. -/
def connectedBridge : BridgeState :=
  { cm := { encryptionContext := some demoCtx, ws := some .opened, mc := 0, pendingAcks := [] },
    authState := .authenticated, deviceListReceived := true, acksReceived := [] }

/-- C3 counterexample: in `connectedBridge` no `{ACK, ref}` was ever received
(`acksReceived = []`) and no waiter exists, yet `switchDevice` resolves to
success immediately, registering nothing in pendingAcks — refuting the claim
that the mutating operations return success only when an ACK for their mc
arrived. -/
theorem switchDevice_success_without_ack :
    connectedBridge.acksReceived = [] ∧
    connectedBridge.cm.pendingAcks = [] ∧
    switchDevice connectedBridge "D1" true =
      .ok { ret := true, newMc := 1,
            frames := [{ type_int := DEVICE_SWITCH, mc := some 1,
                         payload := [("deviceId", .vStr "D1"), ("switch", .vBool true)] }],
            pendingAcksAfter := [] } :=
  ⟨rfl, rfl, rfl⟩

/-- C3 amended: the four mutating facade operations do NOT go through the
ACK tracker: in any connected state each resolves to true immediately after
writing exactly one frame through `sendEncrypted`, leaves the pendingAcks
map untouched, and its result is independent of which ACKs have been
received. -/
theorem mutating_ops_no_ack_tracking (s : BridgeState) (d r : String) (b : Bool)
    (v sc : JSNumber) (rv : RoomValue)
    (h : BridgeState.isConnected s = true) :
    switchDevice s d b =
      .ok { ret := true, newMc := s.cm.mc + 1,
            frames := [{ type_int := DEVICE_SWITCH, mc := some (s.cm.mc + 1),
                         payload := [("deviceId", .vStr d), ("switch", .vBool b)] }],
            pendingAcksAfter := s.cm.pendingAcks } ∧
    setDimmerValue s d v =
      .ok { ret := true, newMc := s.cm.mc + 1,
            frames := [{ type_int := DEVICE_DIM, mc := some (s.cm.mc + 1),
                         payload := [("deviceId", .vStr d),
                           ("dimmvalue", .vNum (jsMax (.num 1) (jsMin (.num 99) v)))] }],
            pendingAcksAfter := s.cm.pendingAcks } ∧
    controlRoom s r .actSwitch rv =
      .ok { ret := true, newMc := s.cm.mc + 1,
            frames := [{ type_int := ROOM_SWITCH, mc := some (s.cm.mc + 1),
                         payload := [("roomId", .vStr r), ("switch", rv.asJSValue)] }],
            pendingAcksAfter := s.cm.pendingAcks } ∧
    activateScene s sc =
      .ok { ret := true, newMc := s.cm.mc + 1,
            frames := [{ type_int := ACTIVATE_SCENE, mc := some (s.cm.mc + 1),
                         payload := [("sceneId", .vNum sc)] }],
            pendingAcksAfter := s.cm.pendingAcks } ∧
    (∀ acks, switchDevice { s with acksReceived := acks } d b = switchDevice s d b) := by
  have hcm : CMState.isConnected s.cm = true := h
  have hsend : ∀ msg, CMState.sendEncrypted { s.cm with mc := s.cm.mc + 1 } msg =
      (true, [msg]) := by
    intro msg
    rw [sendEncrypted_mc_irrelevant]
    exact sendEncrypted_of_connected s.cm msg hcm
  refine ⟨?_, setDimmerValue_eq_of_connected s d v h, ?_, ?_, fun acks => rfl⟩
  · unfold switchDevice
    rw [if_neg (by simp [hcm])]
    simp [ConnectionManager.nextMc, hsend]
  · unfold controlRoom
    rw [if_neg (by simp [hcm]), if_pos rfl]
    simp [ConnectionManager.nextMc, hsend]
  · unfold activateScene
    rw [if_neg (by simp [hcm])]
    simp [ConnectionManager.nextMc, hsend]

/-- Witness for C3 amended: the four operations at the concrete connected
state. -/
theorem mutating_ops_no_ack_tracking_witness :
    setDimmerValue connectedBridge "D1" (.num 50) =
      .ok { ret := true, newMc := 1,
            frames := [{ type_int := DEVICE_DIM, mc := some 1,
                         payload := [("deviceId", .vStr "D1"),
                           ("dimmvalue", .vNum (jsMax (.num 1) (jsMin (.num 99) (.num 50))))] }],
            pendingAcksAfter := [] } :=
  (mutating_ops_no_ack_tracking connectedBridge "D1" "R1" true (.num 50) (.num 1)
    (.rBool true) rfl).2.1

/-- C8 counterexample: a NaN dim value is not rejected — it survives the
`Math.max(1, Math.min(99, v))` clamp as NaN and is dispatched as the
`dimmvalue` payload field of a DEVICE_DIM frame. -/
theorem setDimmerValue_nan_dispatched :
    setDimmerValue connectedBridge "D1" JSNumber.nan =
      .ok { ret := true, newMc := 1,
            frames := [{ type_int := DEVICE_DIM, mc := some 1,
                         payload := [("deviceId", .vStr "D1"),
                                     ("dimmvalue", .vNum JSNumber.nan)] }],
            pendingAcksAfter := [] } := rfl

/-- C8 amended: `setDimmerValue` performs no NaN or type rejection.  In a
connected state it always sends one DEVICE_DIM frame with payload
`{deviceId, dimmvalue}` where the dimmvalue is
`Math.max(1, Math.min(99, v))`: a real `v` below 1 becomes 1, above 99
becomes 99, otherwise `v` itself — while NaN propagates through the clamp
and is sent as the dim value. -/
theorem setDimmerValue_clamp_spec (s : BridgeState) (d : String) (v : JSNumber)
    (h : BridgeState.isConnected s = true) :
    setDimmerValue s d v =
      .ok { ret := true, newMc := s.cm.mc + 1,
            frames := [{ type_int := DEVICE_DIM, mc := some (s.cm.mc + 1),
                         payload := [("deviceId", .vStr d),
                           ("dimmvalue", .vNum (jsMax (.num 1) (jsMin (.num 99) v)))] }],
            pendingAcksAfter := s.cm.pendingAcks } ∧
    (∀ q : ℚ, jsMax (.num 1) (jsMin (.num 99) (.num q)) =
      .num (if q < 1 then 1 else if 99 < q then 99 else q)) ∧
    jsMax (.num 1) (jsMin (.num 99) JSNumber.nan) = JSNumber.nan := by
  refine ⟨setDimmerValue_eq_of_connected s d v h, ?_, rfl⟩
  intro q
  simp only [jsMin, jsMax, JSNumber.num.injEq]
  split_ifs with h1 h2
  · rw [min_eq_right (by linarith), max_eq_left (by linarith)]
  · rw [min_eq_left (by linarith), max_eq_right (by linarith)]
  · rw [min_eq_right (by linarith), max_eq_right (by linarith)]

/-- Witness for C8 amended: evaluation at the connected state with v = 150,
clamped to 99. -/
theorem setDimmerValue_clamp_spec_witness :
    setDimmerValue connectedBridge "D1" (.num 150) =
      .ok { ret := true, newMc := 1,
            frames := [{ type_int := DEVICE_DIM, mc := some 1,
                         payload := [("deviceId", .vStr "D1"),
                           ("dimmvalue", .vNum (jsMax (.num 1) (jsMin (.num 99) (.num 150))))] }],
            pendingAcksAfter := [] } :=
  (setDimmerValue_clamp_spec connectedBridge "D1" (.num 150) rfl).1

/-- Retry configuration (ConnectionManager.mts lines 25-29). -/
structure RetryConfig where
  maxRetries : Nat
  ackTimeout : Nat
  retryDelay : Nat
deriving DecidableEq

/-- DEFAULT_RETRY_CONFIG (ConnectionManager.mts lines 31-35): 3 retries,
5000 ms ACK timeout, 500 ms between retries. -/
def DEFAULT_RETRY_CONFIG : RetryConfig := ⟨3, 5000, 500⟩

/-- Environment of one `sendWithRetry` call, indexed by attempt number:
whether `isConnected()` holds when the attempt runs, whether
`sendEncrypted` returns true, and whether an ACK for the message's mc
arrives within that attempt's ACK window. -/
structure RetryEnv where
  connectedAt : Nat → Bool
  sendOkAt : Nat → Bool
  ackedAt : Nat → Bool

/-- Observable outcome of a `sendWithRetry` call: the resolved boolean, how
many frames were written, and how long the call spent in inter-retry delays
and in expired ACK windows (an ACK that arrives resolves the wait early,
counted as 0 here). -/
structure RetryOutcome where
  success : Bool
  framesSent : Nat
  delayWaited : Nat
  ackWaited : Nat
deriving DecidableEq

/-- Embeds the loop of `sendWithRetry` (ConnectionManager.mts lines 306-335):
for attempt = 0 .. maxRetries: when attempt > 0 first wait retryDelay; when
not connected, log and `continue`; when sendEncrypted fails, `continue`;
when the message has no mc, resolve true; otherwise wait for the ACK with
the ackTimeout and resolve true when it arrives, else `continue`.  Falling
out of the loop resolves false.  `fuel` is the number of loop iterations
still allowed (maxRetries + 1 at the start). -/
def sendWithRetryFrom (cfg : RetryConfig) (env : RetryEnv) (mc : Option Nat) :
    Nat → Nat → RetryOutcome → RetryOutcome
  | _, 0, acc => { acc with success := false }
  | attempt, fuel + 1, acc =>
      let acc1 := if 0 < attempt
        then { acc with delayWaited := acc.delayWaited + cfg.retryDelay }
        else acc
      if env.connectedAt attempt = false then
        sendWithRetryFrom cfg env mc (attempt + 1) fuel acc1
      else if env.sendOkAt attempt = false then
        sendWithRetryFrom cfg env mc (attempt + 1) fuel acc1
      else
        let acc2 := { acc1 with framesSent := acc1.framesSent + 1 }
        match mc with
        | none => { acc2 with success := true }
        | some _ =>
            if env.ackedAt attempt then { acc2 with success := true }
            else sendWithRetryFrom cfg env mc (attempt + 1) fuel
              { acc2 with ackWaited := acc2.ackWaited + cfg.ackTimeout }

/-- Embeds `sendWithRetry` (ConnectionManager.mts lines 306-335). -/
def sendWithRetry (cfg : RetryConfig) (env : RetryEnv) (mc : Option Nat) :
    RetryOutcome :=
  sendWithRetryFrom cfg env mc 0 (cfg.maxRetries + 1) ⟨false, 0, 0, 0⟩

theorem sendWithRetryFrom_never_connected (cfg : RetryConfig) (env : RetryEnv)
    (mc : Option Nat) (h : ∀ i, env.connectedAt i = false) :
    ∀ fuel attempt acc, 1 ≤ attempt →
      sendWithRetryFrom cfg env mc attempt fuel acc =
        { acc with success := false,
                   delayWaited := acc.delayWaited + fuel * cfg.retryDelay } := by
  intro fuel
  induction fuel with
  | zero =>
      intro attempt acc h1
      rw [sendWithRetryFrom]
      simp
  | succ n ih =>
      intro attempt acc h1
      rw [sendWithRetryFrom]
      rw [if_pos (h attempt), if_pos (show 0 < attempt from h1)]
      rw [ih (attempt + 1) _ (by omega)]
      simp only [RetryOutcome.mk.injEq]
      refine ⟨trivial, trivial, by ring, trivial⟩

/-- A `sendWithRetry` environment in which the connection never becomes
available. -/
def neverConnectedEnv : RetryEnv := ⟨fun _ => false, fun _ => true, fun _ => true⟩

/-- C6 counterexample: with the default configuration and a connection that
never becomes available, the call does NOT fail immediately — it works
through all 3 retries, waiting the 500 ms retry delay before each (1500 ms
total), and then resolves plain false rather than raising a NotConnected
error; no frame is sent and no ACK window is waited out. -/
theorem sendWithRetry_not_immediate :
    sendWithRetry DEFAULT_RETRY_CONFIG neverConnectedEnv (some 1) =
      { success := false, framesSent := 0, delayWaited := 1500, ackWaited := 0 } := by
  rfl

/-- C6 amended: when `sendWithRetry` runs while the client is not connected
and the connection never becomes available, no frame is sent and no ACK
timeout is waited, but the call still iterates the full retry loop —
`maxRetries` inter-retry delays — and then resolves false (there is no
immediate NotConnected failure path). -/
theorem sendWithRetry_never_connected_spec (cfg : RetryConfig) (env : RetryEnv)
    (mc : Option Nat) (h : ∀ i, env.connectedAt i = false) :
    sendWithRetry cfg env mc =
      { success := false, framesSent := 0,
        delayWaited := cfg.maxRetries * cfg.retryDelay, ackWaited := 0 } := by
  unfold sendWithRetry
  rw [sendWithRetryFrom]
  rw [if_neg (by omega : ¬ 0 < 0), if_pos (h 0)]
  simp only [Nat.zero_add]
  rw [sendWithRetryFrom_never_connected cfg env mc h cfg.maxRetries 1 _ (by omega)]
  simp

/-- Witness for C6 amended: the never-connected environment under the default
configuration. -/
theorem sendWithRetry_never_connected_witness :
    sendWithRetry DEFAULT_RETRY_CONFIG neverConnectedEnv none =
      { success := false, framesSent := 0, delayWaited := 1500, ackWaited := 0 } :=
  sendWithRetry_never_connected_spec DEFAULT_RETRY_CONFIG neverConnectedEnv none
    (fun _ => rfl)

/-- Execution phases of the Node.js event loop relevant to the frame handler:
code running synchronously inside the WebSocket message callback, callbacks
queued with `process.nextTick` (drained when the current operation
completes, before the event loop continues), and callbacks queued with
`setImmediate` (run in the later check phase).  nextTick callbacks always
run before setImmediate callbacks scheduled in the same macrotask; within
one phase callbacks run in queue order. -/
inductive NodePhase where
  | sync | tick | immediate
deriving DecidableEq

/-- The pieces of work `handleEncryptedMessage` produces for one inbound
frame. -/
inductive BridgeWork where
  | sendAckFrame : Nat → BridgeWork
  | authenticatorHandle : BridgeWork
  | processMessage : BridgeWork
deriving DecidableEq

/-- An inbound decoded protocol message (the fields the dispatch reads). -/
structure InMessage where
  type_int : Nat
  mc : Option Nat := none
deriving DecidableEq

/-- Embeds the dispatch condition of `Authenticator.handleEncryptedMessage`
(Authenticator.mts lines 201-272): it consumes SECRET_EXCHANGE_ACK (17),
LOGIN_RESPONSE (32), TOKEN_APPLY_ACK (34) and TOKEN_RENEW_RESPONSE (38),
returning true for them and false for everything else. -/
def authenticatorHandles (t : Nat) : Bool :=
  t == 17 || t == 32 || t == 34 || t == 38

/-- Embeds `XComfortBridge.handleEncryptedMessage` (lines 234-258) as the
work it schedules, in scheduling order with each item's phase: for a
message with an `mc` field the `{type_int: ACK, ref: mc}` send is queued
with `setImmediate`; then the authenticator handler runs synchronously when
it accepts the type; otherwise `messageHandler.processMessage` is queued
with `process.nextTick`. -/
def handleEncryptedMessage (msg : InMessage) : List (NodePhase × BridgeWork) :=
  (match msg.mc with
    | some ref => [(NodePhase.immediate, BridgeWork.sendAckFrame ref)]
    | none => []) ++
  (if authenticatorHandles msg.type_int
    then [(NodePhase.sync, BridgeWork.authenticatorHandle)]
    else [(NodePhase.tick, BridgeWork.processMessage)])

/-- Order in which the Node event loop executes the scheduled work: the
synchronous work, then the drained nextTick queue, then the setImmediate
queue; stable within each phase. -/
def runOrder (ts : List (NodePhase × BridgeWork)) : List BridgeWork :=
  (ts.filter (fun t => t.1 == NodePhase.sync) ++
   ts.filter (fun t => t.1 == NodePhase.tick) ++
   ts.filter (fun t => t.1 == NodePhase.immediate)).map Prod.snd

/-- C1 evidence: for an inbound encrypted STATE_UPDATE carrying mc = 100,
the semantic processing (`messageHandler.processMessage`, queued with
process.nextTick) runs BEFORE the ACK frame is sent (queued with
setImmediate), because Node drains the nextTick queue ahead of the check
phase — and for the auth-flow types the semantic handling even runs
synchronously.  The outbound `{ACK, ref=mc}` is therefore not sent before
semantic processing of the message's payload begins. -/
theorem ack_sent_after_processing :
    runOrder (handleEncryptedMessage { type_int := 310, mc := some 100 }) =
      [BridgeWork.processMessage, BridgeWork.sendAckFrame 100] ∧
    runOrder (handleEncryptedMessage { type_int := 34, mc := some 7 }) =
      [BridgeWork.authenticatorHandle, BridgeWork.sendAckFrame 7] := by
  exact ⟨rfl, rfl⟩

/-- An entry of a device's `info` array (types `InfoEntry`): the text code
and the value.  The code applies `String(info.value)` before parsing, so
the value is embedded as the resulting string (`none` for `undefined`). -/
structure InfoEntry where
  text : String
  value : Option String := none
deriving DecidableEq

/-- Parsed metadata (types `DeviceMetadata`); the fields carry whatever
`parseFloat` produced, including NaN. -/
structure DeviceMetadata where
  temperature : Option JSNumber := none
  humidity : Option JSNumber := none
deriving DecidableEq

/-- INFO_TEXT_CODES.TEMPERATURE_STANDARD (XComfortProtocol.mts line 103). -/
def TEMPERATURE_STANDARD : String := "1222"

/-- INFO_TEXT_CODES.HUMIDITY_STANDARD (XComfortProtocol.mts line 104). -/
def HUMIDITY_STANDARD : String := "1223"

/-- INFO_TEXT_CODES.TEMPERATURE_DIMMER (XComfortProtocol.mts line 105). -/
def TEMPERATURE_DIMMER : String := "1109"

/-- Longest prefix of decimal digits, as digit values, with the rest. -/
def takeDigits : List Char → List Nat × List Char
  | [] => ([], [])
  | c :: cs =>
      if c.isDigit then
        let r := takeDigits cs
        ((c.toNat - 48) :: r.1, r.2)
      else ([], c :: cs)

/-- Value of a big-endian digit list. -/
def digitsToNat (ds : List Nat) : Nat := ds.foldl (fun a d => a * 10 + d) 0

/-- Unsigned part of a JavaScript number literal: integer digits with an
optional fraction; `none` when no digit is present at all. -/
def parseUnsigned (s : List Char) : Option ℚ :=
  let ip := takeDigits s
  match ip.2 with
  | '.' :: r2 =>
      let fp := takeDigits r2
      if ip.1.isEmpty ∧ fp.1.isEmpty then none
      else some ((digitsToNat ip.1 : ℚ) + (digitsToNat fp.1 : ℚ) / (10 ^ fp.1.length))
  | _ => if ip.1.isEmpty then none else some ((digitsToNat ip.1 : ℚ))

/-- JavaScript `parseFloat` on the decimal literals the bridge's info values
use: optional sign, digits, optional fraction; the longest valid prefix is
parsed and trailing text ignored; no digit at all gives NaN.  (Exponent
suffixes, `Infinity` and leading whitespace do not occur in these strings
and are not modelled.) -/
def parseFloat (s : String) : JSNumber :=
  match s.data with
  | '-' :: rest =>
      (match parseUnsigned rest with
        | some q => JSNumber.num (-q)
        | none => JSNumber.nan)
  | '+' :: rest =>
      (match parseUnsigned rest with
        | some q => JSNumber.num q
        | none => JSNumber.nan)
  | rest =>
      (match parseUnsigned rest with
        | some q => JSNumber.num q
        | none => JSNumber.nan)

/-- Embeds `DeviceStateManager.parseInfoMetadata` (lines 122-142): for every
entry with truthy `text` and defined `value`, the recognised text codes set
`temperature` (1222 and 1109) or `humidity` (1223) to the parseFloat of the
stringified value; other codes are ignored. -/
def parseInfoMetadata (infoArray : List InfoEntry) : DeviceMetadata :=
  infoArray.foldl
    (fun metadata info =>
      if info.text ≠ "" ∧ info.value ≠ none then
        if info.text = TEMPERATURE_STANDARD then
          { metadata with temperature := some (parseFloat (info.value.getD "")) }
        else if info.text = HUMIDITY_STANDARD then
          { metadata with humidity := some (parseFloat (info.value.getD "")) }
        else if info.text = TEMPERATURE_DIMMER then
          { metadata with temperature := some (parseFloat (info.value.getD "")) }
        else metadata
      else metadata)
    {}

/-- An element of a STATE_UPDATE `item` array (state/index.mts lines
220-235); every field is optional on the wire. -/
structure StateUpdateItem where
  deviceId : Option String := none
  roomId : Option String := none
  switch : Option Bool := none
  dimmvalue : Option JSNumber := none
  power : Option JSNumber := none
  curstate : Option JSValue := none
  info : Option (List InfoEntry) := none
  lightsOn : Option JSNumber := none
  loadsOn : Option JSNumber := none
  windowsOpen : Option JSNumber := none
  doorsOpen : Option JSNumber := none
  presence : Option JSNumber := none
  shadsClosed : Option JSNumber := none
  errorState : Option JSValue := none
deriving DecidableEq

/-- DeviceStateUpdate (state/index.mts lines 127-133). -/
structure DeviceStateUpdate where
  switch : Option Bool := none
  dimmvalue : Option JSNumber := none
  power : Option JSNumber := none
  curstate : Option JSValue := none
  metadata : Option DeviceMetadata := none
deriving DecidableEq

/-- RoomStateUpdate as built by processStateUpdate (part_012 lines 291-302). -/
structure RoomStateUpdate where
  switch : Option Bool := none
  dimmvalue : Option JSNumber := none
  lightsOn : Option JSNumber := none
  loadsOn : Option JSNumber := none
  windowsOpen : Option JSNumber := none
  doorsOpen : Option JSNumber := none
  presence : Option JSNumber := none
  shadsClosed : Option JSNumber := none
  power : Option JSNumber := none
  errorState : Option JSValue := none
deriving DecidableEq

/-- JavaScript truthiness of an optional string field: present and
non-empty. -/
def truthyStr : Option String → Bool
  | none => false
  | some s => !(s == "")

/-- `Map.has` over an insertion-ordered association list. -/
def alHas {α : Type} (m : List (String × α)) (k : String) : Bool :=
  m.any (fun e => e.1 == k)

/-- `Map.get` with a fallback (the maps here are only read after `has`). -/
def alGet {α : Type} (m : List (String × α)) (k : String) (dflt : α) : α :=
  ((m.find? (fun e => e.1 == k)).map Prod.snd).getD dflt

/-- `Map.set`: replaces the value in place when the key exists (JS `Map`
keeps the original insertion position), otherwise appends. -/
def alSet {α : Type} (m : List (String × α)) (k : String) (v : α) : List (String × α) :=
  if alHas m k then m.map (fun e => if e.1 == k then (k, v) else e)
  else m ++ [(k, v)]

/-- The mutation `processStateUpdate` applies to a device's accumulated
update for one item (part_012 lines 276-289): items with a `switch` or
`dimmvalue` key copy switch/dimmvalue/power/curstate; otherwise an item
with an `info` array contributes parsed metadata when non-empty; otherwise
the item changes nothing. -/
def applyDeviceItem (item : StateUpdateItem) (u : DeviceStateUpdate) : DeviceStateUpdate :=
  if item.switch ≠ none ∨ item.dimmvalue ≠ none then
    { u with switch := item.switch, dimmvalue := item.dimmvalue,
             power := item.power, curstate := item.curstate }
  else
    match item.info with
    | some infos =>
        let metadata := parseInfoMetadata infos
        if metadata ≠ {} then { u with metadata := some metadata } else u
    | none => u

/-- The two coalescing maps built by `processStateUpdate`, in insertion
order; after the item loop the code calls `triggerListeners` once per entry
of each, so each list is also the dispatch list. -/
structure FanoutAcc where
  deviceUpdates : List (String × DeviceStateUpdate) := []
  roomUpdates : List (String × RoomStateUpdate) := []
deriving DecidableEq

/-- Embeds the body of the `payload.item.forEach` of
`MessageHandler.processStateUpdate` (part_012 lines 259-304): a truthy
`deviceId` selects the device branch (ensuring a map entry exists, then
mutating it in place); otherwise a truthy `roomId` overwrites that room's
entry with a complete RoomStateUpdate; otherwise the item is ignored.  (The
devType-220 branch only logs and is omitted.) -/
def processItem (acc : FanoutAcc) (item : StateUpdateItem) : FanoutAcc :=
  if truthyStr item.deviceId then
    let id := item.deviceId.getD ""
    let dus := if alHas acc.deviceUpdates id then acc.deviceUpdates
               else acc.deviceUpdates ++ [(id, ({ } : DeviceStateUpdate))]
    let u := alGet dus id ({ } : DeviceStateUpdate)
    { acc with deviceUpdates := alSet dus id (applyDeviceItem item u) }
  else if truthyStr item.roomId then
    let id := item.roomId.getD ""
    let ru : RoomStateUpdate :=
      { switch := item.switch, dimmvalue := item.dimmvalue,
        lightsOn := item.lightsOn, loadsOn := item.loadsOn,
        windowsOpen := item.windowsOpen, doorsOpen := item.doorsOpen,
        presence := item.presence, shadsClosed := item.shadsClosed,
        power := item.power, errorState := item.errorState }
    { acc with roomUpdates := alSet acc.roomUpdates id ru }
  else acc

/-- Embeds `MessageHandler.processStateUpdate` (part_012 lines 246-317) on a
payload's `item` array. -/
def processStateUpdate (items : List StateUpdateItem) : FanoutAcc :=
  items.foldl processItem {}

theorem alSet_keys_of_has {α : Type} (m : List (String × α)) (k : String) (v : α)
    (h : alHas m k = true) : (alSet m k v).map Prod.fst = m.map Prod.fst := by
  unfold alSet
  rw [if_pos h]
  clear h
  induction m with
  | nil => rfl
  | cons e es ih =>
      simp only [List.map_cons]
      have hhead : (if (e.1 == k) = true then (k, v) else e).1 = e.1 := by
        by_cases he : (e.1 == k) = true
        · rw [if_pos he]
          have he2 : e.1 = k := by simpa using he
          exact he2.symm
        · rw [if_neg he]
      rw [hhead, ih]

theorem alHas_false_not_mem {α : Type} (m : List (String × α)) (k : String)
    (h : alHas m k = false) : k ∉ m.map Prod.fst := by
  unfold alHas at h
  intro hmem
  obtain ⟨e, he, hfst⟩ := List.mem_map.mp hmem
  have : m.any (fun e => e.1 == k) = true :=
    List.any_eq_true.mpr ⟨e, he, by simp [hfst]⟩
  rw [h] at this
  exact Bool.false_ne_true this

theorem alHas_true_mem {α : Type} (m : List (String × α)) (k : String)
    (h : alHas m k = true) : k ∈ m.map Prod.fst := by
  unfold alHas at h
  obtain ⟨e, he, hk⟩ := List.any_eq_true.mp h
  exact List.mem_map.mpr ⟨e, he, by simpa using hk.symm⟩

theorem mem_keys_alSet {α : Type} (m : List (String × α)) (k : String) (v : α) :
    k ∈ (alSet m k v).map Prod.fst := by
  by_cases h : alHas m k
  · rw [alSet_keys_of_has m k v h]
    exact alHas_true_mem m k h
  · unfold alSet
    rw [if_neg h]
    simp

theorem processItem_keys_nodup (acc : FanoutAcc) (item : StateUpdateItem)
    (h : (acc.deviceUpdates.map Prod.fst).Nodup) :
    ((processItem acc item).deviceUpdates.map Prod.fst).Nodup := by
  unfold processItem
  by_cases hid : truthyStr item.deviceId
  · rw [if_pos hid]
    by_cases hhas : alHas acc.deviceUpdates (item.deviceId.getD "")
    · simp only [hhas, if_pos]
      rw [alSet_keys_of_has _ _ _ hhas]
      exact h
    · simp only [hhas, Bool.false_eq_true, if_false]
      have hhas2 : alHas (acc.deviceUpdates ++ [(item.deviceId.getD "", ({} : DeviceStateUpdate))])
          (item.deviceId.getD "") = true := by
        unfold alHas
        simp
      rw [alSet_keys_of_has _ _ _ hhas2]
      simp only [List.map_append, List.map_cons, List.map_nil]
      rw [List.nodup_append]
      refine ⟨h, List.nodup_singleton _, ?_⟩
      intro a ha hb
      simp only [List.mem_singleton] at hb
      subst hb
      exact alHas_false_not_mem _ _ (by simpa using hhas) ha
  · rw [if_neg hid]
    by_cases hrid : truthyStr item.roomId
    · rw [if_pos hrid]
      exact h
    · rw [if_neg hrid]
      exact h

theorem processStateUpdate_keys_nodup_from (items : List StateUpdateItem) :
    ∀ acc : FanoutAcc, (acc.deviceUpdates.map Prod.fst).Nodup →
      ((items.foldl processItem acc).deviceUpdates.map Prod.fst).Nodup := by
  induction items with
  | nil => intro acc h; exact h
  | cons item rest ih =>
      intro acc h
      exact ih (processItem acc item) (processItem_keys_nodup acc item h)

/-- The item array of scenario 3 of the spec: the same device appears once
with switch/dimmvalue and once with a metadata info array. -/
def exDimItem : StateUpdateItem :=
  { deviceId := some "D1", switch := some true, dimmvalue := some (.num 80) }

/-- Second item of scenario 3: info entry with the dimming-actuator
temperature code. -/
def exInfoItem : StateUpdateItem :=
  { deviceId := some "D1", info := some [{ text := "1109", value := some "22.5" }] }

/-- C9: device items of one STATE_UPDATE are coalesced by id: the built
device-update map never holds two entries for one device id (so the final
dispatch loop fires exactly one triggerListeners call per device id), and
on the spec's concrete example — the same device once with
switch/dimmvalue and once with an info array — the result is a single
merged update carrying switch, dimmvalue and the parsed temperature
metadata, and no room update. -/
theorem stateUpdate_coalesces_by_id :
    (∀ items : List StateUpdateItem,
      (((processStateUpdate items).deviceUpdates).map Prod.fst).Nodup) ∧
    processStateUpdate [exDimItem, exInfoItem] =
      { deviceUpdates := [("D1",
          { switch := some true, dimmvalue := some (.num 80), power := none,
            curstate := none,
            metadata := some { temperature := some (.num (45 / 2)), humidity := none } })],
        roomUpdates := [] } ∧
    (processStateUpdate [exDimItem, exInfoItem]).deviceUpdates.length = 1 := by
  have hconc : processStateUpdate [exDimItem, exInfoItem] =
      { deviceUpdates := [("D1",
          { switch := some true, dimmvalue := some (.num 80), power := none,
            curstate := none,
            metadata := some { temperature := some (.num (45 / 2)), humidity := none } })],
        roomUpdates := [] } := by
    simp [processStateUpdate, List.foldl, processItem, exDimItem, exInfoItem,
      truthyStr, alHas, alGet, alSet, applyDeviceItem, parseInfoMetadata,
      parseFloat, parseUnsigned, takeDigits, digitsToNat,
      TEMPERATURE_DIMMER, TEMPERATURE_STANDARD, HUMIDITY_STANDARD]
    norm_num
  refine ⟨fun items => processStateUpdate_keys_nodup_from items {} (by simp), hconc, ?_⟩
  rw [hconc]
  rfl

/-- C10: an item that carries a (truthy) deviceId is processed by the device
branch only, whatever other fields it carries: the room-update map is left
untouched and the device-update map afterwards has an entry for that id. -/
theorem device_item_excludes_room_branch (acc : FanoutAcc) (item : StateUpdateItem)
    (h : truthyStr item.deviceId = true) :
    (processItem acc item).roomUpdates = acc.roomUpdates ∧
    (item.deviceId.getD "") ∈ ((processItem acc item).deviceUpdates).map Prod.fst := by
  unfold processItem
  rw [if_pos h]
  exact ⟨rfl, mem_keys_alSet _ _ _⟩

/-- An item carrying both a deviceId and a roomId. -/
def dualScopeItem : StateUpdateItem :=
  { deviceId := some "D1", roomId := some "R1", switch := some true }

/-- Witness for C10: the dual-scoped item at the empty accumulator produces
no room update and a device entry for D1. -/
theorem device_item_excludes_room_branch_witness :
    (processItem {} dualScopeItem).roomUpdates = [] ∧
    "D1" ∈ ((processItem {} dualScopeItem).deviceUpdates).map Prod.fst :=
  device_item_excludes_room_branch {} dualScopeItem rfl

end XComfort
